import Mathlib

/-!
Shallow embedding of the E-Proc-Scraper pipeline
(src/utils/retry.py, src/utils/dedup.py, src/scraper/cleaner.py,
src/scraper/parser.py, src/scraper/persister.py, src/scraper/orchestrator.py)
together with theorems settling the spec claims.

Python strings are modelled as Lean `String` / `List Char`; Python `set`
membership as list membership; exceptions as `Except String`; the external
`dateutil` date parser as an abstract parameter `String → Option String`
(success = the `YYYY-MM-DD` strftime result, failure = `none`).
-/

/-! ## Python-flavoured character and string helpers -/

/-- Python `\s` / `str.strip` whitespace class (ASCII part). -/
def isPyWs (c : Char) : Bool :=
  c == ' ' || c == '\t' || c == '\n' || c == '\r' ||
  c == Char.ofNat 11 || c == Char.ofNat 12

/-- Python `str.strip()` on a character list. -/
def pyStripL (l : List Char) : List Char :=
  ((l.dropWhile isPyWs).reverse.dropWhile isPyWs).reverse

/-- Python `str.strip()`. -/
def pyStrip (s : String) : String := (pyStripL s.data).asString

/-- Python `str.upper()` (ASCII). -/
def pyUpper (s : String) : String := (s.data.map Char.toUpper).asString

/-- Does `needle` occur as a contiguous substring of `hay`?  (Python `in`.) -/
def containsSub (needle : List Char) : List Char → Bool
  | [] => needle.isEmpty
  | c :: rest => needle.isPrefixOf (c :: rest) || containsSub needle rest

/-- Leftmost index (if any) at which `needle` occurs in `hay`. -/
def subIndex (needle : List Char) : List Char → Option Nat
  | [] => if needle.isEmpty then some 0 else none
  | c :: rest =>
    if needle.isPrefixOf (c :: rest) then some 0
    else (subIndex needle rest).map (· + 1)

/-- `re.sub(r'\s+', ' ', s)`: collapse each maximal whitespace run to a single
space.  The boolean tracks whether the previous character was whitespace
(i.e. whether we are inside a run already replaced). -/
def collapseWsAux : Bool → List Char → List Char
  | _, [] => []
  | prevWs, c :: rest =>
    if isPyWs c then
      if prevWs then collapseWsAux true rest
      else ' ' :: collapseWsAux true rest
    else c :: collapseWsAux false rest

/-- `re.sub(r'\s+', ' ', s)` on a character list. -/
def collapseWs (l : List Char) : List Char := collapseWsAux false l

/-! ## Loosely-typed Python values (for the `attachments_raw` field) -/

/-- A loosely-typed Python value as it may appear in a raw record field. -/
inductive PyVal where
  | vNone : PyVal
  | vStr : String → PyVal
  | vInt : Int → PyVal
  | vList : List PyVal → PyVal

/-- Python truthiness of a `PyVal`. -/
def pyTruthy : PyVal → Bool
  | .vNone => false
  | .vStr s => !(s == "")
  | .vInt n => !(n == 0)
  | .vList l => !l.isEmpty

/-- Python `str()` on a `PyVal` (list rendering approximated; the cleaner only
applies this to scalar attachment entries). -/
def pyToString : PyVal → String
  | .vNone => "None"
  | .vStr s => s
  | .vInt n => toString n
  | .vList l =>
      "[" ++ String.intercalate (", ") (l.attach.map (fun x => pyToString x.1)) ++ "]"
decreasing_by
  simp_wf
  have := List.sizeOf_lt_of_mem x.2
  omega

/-! ## Data model (src/models/tender.py) -/

/-- The normalized tender entity (dataclass `Tender`).  The two date fields are
`Option String` because `closing_date` may be `None` at runtime. -/
structure Tender where
  tender_id : String
  tender_type : String
  title : String
  organization : String
  publish_date : Option String
  closing_date : Option String
  description : String
  source_url : String
  attachments : List String
  raw_html_snippet : Option String := none
  ingested_at : Option String := none
deriving Repr, DecidableEq

/-- A raw record as produced by the Parser (a loosely-typed dict; fields read
with `.get(key, default)` are modelled with those defaults, the `description`
key — whose absence makes the cleaner fall back to the title — as `Option`). -/
structure RawRecord where
  tender_id : String := ""
  title : String := ""
  organization : String := ""
  tender_type_raw : String := ""
  publish_date_raw : String := ""
  closing_date_raw : String := ""
  description : Option String := none
  source_url : String := ""
  attachments_raw : PyVal := .vList []
  raw_html : Option String := none

/-! ## Retry policy (src/utils/retry.py)

`retry_with_backoff` wraps a fallible operation.  The wrapped operation is
modelled as `func : Nat → Except ε α` giving the outcome of its `i`-th
invocation; `random.uniform(0, 1)` as `jitter : Nat → ℚ` giving the sample
drawn before the `(i+1)`-th attempt.  The trace records the Python return
value (`Except.ok none` models the wrapper falling off the loop and returning
`None`), the number of invocations of `func`, and the sequence of `time.sleep`
delays. -/

structure RetryTrace (ε α : Type) where
  result : Except ε (Option α)
  calls : Nat
  delays : List ℚ

theorem RetryTrace.ext_iff {ε α : Type} (a b : RetryTrace ε α) :
    a = b ↔ a.result = b.result ∧ a.calls = b.calls ∧ a.delays = b.delays := by
  cases a; cases b; simp

/-- The `for attempt in range(max_retries)` loop of the wrapper, from attempt
index `attempt`, with `total = max_retries` and `fuel` the number of loop
iterations still to run (`total - attempt`; fuel `0` models the loop falling
through, whereupon the wrapper returns `None`). -/
def retryLoop {ε α : Type} (func : Nat → Except ε α) (baseDelay : ℚ)
    (jitter : Nat → ℚ) (total : Nat) (attempt : Nat) : Nat → RetryTrace ε α
  | 0 => ⟨.ok none, 0, []⟩
  | fuel + 1 =>
    match func attempt with
    | .ok v => ⟨.ok (some v), 1, []⟩
    | .error e =>
      if attempt < total - 1 then
        let rest := retryLoop func baseDelay jitter total (attempt + 1) fuel
        ⟨rest.result, rest.calls + 1,
          (baseDelay * 2 ^ attempt + jitter attempt) :: rest.delays⟩
      else
        ⟨.error e, 1, []⟩

/-- `retry_with_backoff(max_retries, base_delay)` applied to an operation:
Python's `range(max_retries)` is empty for non-positive `max_retries`,
whence `Int.toNat`. -/
def retry_with_backoff {ε α : Type} (max_retries : Int) (base_delay : ℚ)
    (jitter : Nat → ℚ) (func : Nat → Except ε α) : RetryTrace ε α :=
  retryLoop func base_delay jitter max_retries.toNat 0 max_retries.toNat

/-! ## Deduplicator (src/utils/dedup.py) -/

/-- `TenderDeduplicator`: the `seen_ids` set is modelled as a list used only
through membership. -/
structure TenderDeduplicator where
  seen_ids : List String
deriving Repr, DecidableEq

/-- `is_duplicate`. -/
def TenderDeduplicator.is_duplicate (d : TenderDeduplicator) (t : Tender) : Bool :=
  decide (t.tender_id ∈ d.seen_ids)

/-- `mark_seen` (set insertion). -/
def TenderDeduplicator.mark_seen (d : TenderDeduplicator) (t : Tender) :
    TenderDeduplicator :=
  ⟨t.tender_id :: d.seen_ids⟩

/-- `deduplicate`, returning the unique tenders together with the updated
seen-set state. -/
def TenderDeduplicator.deduplicate (d : TenderDeduplicator) :
    List Tender → List Tender × TenderDeduplicator
  | [] => ([], d)
  | t :: rest =>
    if d.is_duplicate t then d.deduplicate rest
    else
      let step := (d.mark_seen t).deduplicate rest
      (t :: step.1, step.2)

/-! ### Deduplicator lemmas -/

theorem dedup_cons_dup (d : TenderDeduplicator) (t : Tender) (rest : List Tender)
    (h : t.tender_id ∈ d.seen_ids) :
    d.deduplicate (t :: rest) = d.deduplicate rest := by
  simp [TenderDeduplicator.deduplicate, TenderDeduplicator.is_duplicate, h]

theorem dedup_cons_new (d : TenderDeduplicator) (t : Tender) (rest : List Tender)
    (h : t.tender_id ∉ d.seen_ids) :
    d.deduplicate (t :: rest) =
      (t :: ((d.mark_seen t).deduplicate rest).1,
        ((d.mark_seen t).deduplicate rest).2) := by
  simp [TenderDeduplicator.deduplicate, TenderDeduplicator.is_duplicate, h]

theorem dedup_seen_mem (d : TenderDeduplicator) (ts : List Tender) (x : String) :
    x ∈ (d.deduplicate ts).2.seen_ids ↔
      x ∈ d.seen_ids ∨ x ∈ ts.map (fun t => t.tender_id) := by
  induction ts generalizing d with
  | nil => simp [TenderDeduplicator.deduplicate]
  | cons t rest ih =>
    by_cases h : t.tender_id ∈ d.seen_ids
    · rw [dedup_cons_dup d t rest h, ih d]
      simp only [List.map_cons, List.mem_cons]
      constructor
      · rintro (hx | hx)
        · exact Or.inl hx
        · exact Or.inr (Or.inr hx)
      · rintro (hx | rfl | hx)
        · exact Or.inl hx
        · exact Or.inl h
        · exact Or.inr hx
    · rw [dedup_cons_new d t rest h]
      dsimp only
      rw [ih (d.mark_seen t)]
      simp only [TenderDeduplicator.mark_seen, List.mem_cons, List.map_cons]
      tauto

theorem dedup_sublist (d : TenderDeduplicator) (ts : List Tender) :
    (d.deduplicate ts).1.Sublist ts := by
  induction ts generalizing d with
  | nil => simp [TenderDeduplicator.deduplicate]
  | cons t rest ih =>
    by_cases h : t.tender_id ∈ d.seen_ids
    · rw [dedup_cons_dup d t rest h]
      exact (ih d).cons t
    · rw [dedup_cons_new d t rest h]
      exact (ih (d.mark_seen t)).cons₂ t

theorem dedup_out_not_seen (d : TenderDeduplicator) (ts : List Tender)
    (t : Tender) (ht : t ∈ (d.deduplicate ts).1) : t.tender_id ∉ d.seen_ids := by
  induction ts generalizing d with
  | nil => simp [TenderDeduplicator.deduplicate] at ht
  | cons u rest ih =>
    by_cases h : u.tender_id ∈ d.seen_ids
    · rw [dedup_cons_dup d u rest h] at ht
      exact ih d ht
    · rw [dedup_cons_new d u rest h] at ht
      dsimp only at ht
      rcases List.mem_cons.mp ht with rfl | ht'
      · exact h
      · intro hmem
        refine ih (d.mark_seen u) ht' ?_
        simp only [TenderDeduplicator.mark_seen, List.mem_cons]
        exact Or.inr hmem

theorem dedup_out_nodup (d : TenderDeduplicator) (ts : List Tender) :
    ((d.deduplicate ts).1.map (fun t => t.tender_id)).Nodup := by
  induction ts generalizing d with
  | nil => simp [TenderDeduplicator.deduplicate]
  | cons t rest ih =>
    by_cases h : t.tender_id ∈ d.seen_ids
    · rw [dedup_cons_dup d t rest h]
      exact ih d
    · rw [dedup_cons_new d t rest h]
      dsimp only
      simp only [List.map_cons, List.nodup_cons]
      refine ⟨?_, ih (d.mark_seen t)⟩
      intro hmem
      rcases List.mem_map.mp hmem with ⟨u, hu, hid⟩
      refine dedup_out_not_seen (d.mark_seen t) rest u hu ?_
      simp only [TenderDeduplicator.mark_seen, List.mem_cons]
      exact Or.inl hid

theorem dedup_complete (d : TenderDeduplicator) (ts : List Tender) (t : Tender)
    (hts : t ∈ ts) (hseen : t.tender_id ∉ d.seen_ids) :
    t.tender_id ∈ (d.deduplicate ts).1.map (fun t => t.tender_id) := by
  induction ts generalizing d with
  | nil => simp at hts
  | cons u rest ih =>
    by_cases h : u.tender_id ∈ d.seen_ids
    · rw [dedup_cons_dup d u rest h]
      rcases List.mem_cons.mp hts with rfl | hts'
      · exact absurd h hseen
      · exact ih d hts' hseen
    · rw [dedup_cons_new d u rest h]
      dsimp only
      simp only [List.map_cons, List.mem_cons]
      rcases List.mem_cons.mp hts with rfl | hts'
      · exact Or.inl rfl
      · by_cases hid : t.tender_id = u.tender_id
        · exact Or.inl hid
        · refine Or.inr (ih (d.mark_seen u) hts' ?_)
          simp only [TenderDeduplicator.mark_seen, List.mem_cons, not_or]
          exact ⟨hid, hseen⟩

theorem dedup_all_seen_nil (d : TenderDeduplicator) (ts : List Tender)
    (h : ∀ t ∈ ts, t.tender_id ∈ d.seen_ids) : (d.deduplicate ts).1 = [] := by
  induction ts generalizing d with
  | nil => simp [TenderDeduplicator.deduplicate]
  | cons t rest ih =>
    rw [dedup_cons_dup d t rest (h t (List.mem_cons_self t rest))]
    exact ih d (fun u hu => h u (List.mem_cons_of_mem t hu))

theorem dedup_congr (d₁ d₂ : TenderDeduplicator)
    (h : ∀ x, x ∈ d₁.seen_ids ↔ x ∈ d₂.seen_ids) (ts : List Tender) :
    (d₁.deduplicate ts).1 = (d₂.deduplicate ts).1 := by
  induction ts generalizing d₁ d₂ with
  | nil => simp [TenderDeduplicator.deduplicate]
  | cons t rest ih =>
    by_cases hc : t.tender_id ∈ d₂.seen_ids
    · rw [dedup_cons_dup d₁ t rest ((h _).mpr hc), dedup_cons_dup d₂ t rest hc]
      exact ih d₁ d₂ h
    · rw [dedup_cons_new d₁ t rest (fun hx => hc ((h _).mp hx)),
        dedup_cons_new d₂ t rest hc]
      dsimp only
      have hm : ∀ x, x ∈ (d₁.mark_seen t).seen_ids ↔ x ∈ (d₂.mark_seen t).seen_ids := by
        intro x
        simp [TenderDeduplicator.mark_seen, h]
      rw [ih (d₁.mark_seen t) (d₂.mark_seen t) hm]

/-! ## Cleaner (src/scraper/cleaner.py)

The external `dateutil.parser.parse(s, dayfirst=True).strftime('%Y-%m-%d')`
call is abstracted as a parameter `parseDate : String → Option String`
(`none` models the parse raising); `datetime.now().strftime('%Y-%m-%d')` as a
parameter `today`, and the `Tender.__post_init__` ingestion timestamp as a
parameter `ingested`. -/

/-- `_clean_tender_id`: trim, raise on empty or the sentinel. -/
def clean_tender_id (tid : String) : Except String String :=
  let cleaned := pyStrip tid
  if cleaned = "" ∨ cleaned = "UNKNOWN" then Except.error ("Invalid tender ID")
  else Except.ok cleaned

/-- `_normalize_tender_type`: uppercase, trim, classify by substring. -/
def normalize_tender_type (tender_type : String) : String :=
  let u := pyStrip (pyUpper tender_type)
  if containsSub ("GOOD").data u.data then "Goods"
  else if containsSub ("WORK").data u.data then "Works"
  else if containsSub ("SERVICE").data u.data || containsSub ("SERV").data u.data then
    "Services"
  else "Works"

/-- `_clean_text`: collapse whitespace runs, trim.  (`if not text: return ""`
is absorbed: both branches yield `""` on the empty string.) -/
def clean_text (text : String) : String :=
  pyStrip ((collapseWs text.data).asString)

/-- Remove everything from the leftmost case-insensitive occurrence of
`phrase` to the end of the string (one boilerplate `re.sub(phrase + '.*', '',
desc, flags=IGNORECASE)` pass). -/
def stripFromPhrase (phrase : String) (s : String) : String :=
  match subIndex (phrase.data.map Char.toLower) (s.data.map Char.toLower) with
  | some i => (s.data.take i).asString
  | none => s

/-- `_clean_description`: text-normalize then strip the three trailing
boilerplate patterns, then trim. -/
def clean_description (description : String) : String :=
  let desc := clean_text description
  let desc := stripFromPhrase ("For more details") desc
  let desc := stripFromPhrase ("Please visit") desc
  let desc := stripFromPhrase ("Click here") desc
  pyStrip desc

/-- Does `\d{1,2}:\d{2}` match at the head of the list (rest arbitrary)? -/
def timeCore (l : List Char) : Bool :=
  match l with
  | d1 :: c :: m1 :: m2 :: _ => d1.isDigit && c == ':' && m1.isDigit && m2.isDigit
  | _ => false

/-- Does `\d{1,2}:\d{2}` match at the head, allowing one or two digits? -/
def timeAt (l : List Char) : Bool :=
  timeCore l ||
  (match l with
   | d :: rest => d.isDigit && timeCore rest
   | [] => false)

/-- Does `\s*\d{1,2}:\d{2}` match at the head of the list? -/
def afterWs : List Char → Bool
  | [] => false
  | c :: rest => timeAt (c :: rest) || (isPyWs c && afterWs rest)

/-- `re.sub(r'\s+\d{1,2}:\d{2}.*$', '', s)`: truncate at the leftmost position
where a whitespace run followed by a `H:MM`/`HH:MM` time component starts. -/
def stripTimeL : List Char → List Char
  | [] => []
  | c :: rest => if isPyWs c && afterWs rest then [] else c :: stripTimeL rest

/-- `re.sub(r'\s+\d{1,2}:\d{2}.*$', '', s)` on strings. -/
def stripTime (s : String) : String := (stripTimeL s.data).asString

/-- `_normalize_date(date_str, allow_null)`. -/
def normalize_date (parseDate : String → Option String) (today : String)
    (date_str : String) (allow_null : Bool) : Option String :=
  if date_str = "" ∨ pyStrip date_str = "" then
    if allow_null then none else some today
  else
    let s1 := pyStrip date_str
    let s2 := stripTime s1
    match parseDate s2 with
    | some d => some d
    | none => if allow_null then none else some today

/-- `_extract_attachments`. -/
def extract_attachments (attachments_raw : PyVal) : List String :=
  if !pyTruthy attachments_raw then []
  else
    match attachments_raw with
    | .vStr s => if pyTruthy (.vStr s) then [s] else []
    | .vList l => (l.filter pyTruthy).map pyToString
    | _ => []

/-- `clean_tender` before the catch-all `except`: builds the `Tender`, the
tender-id validation raising `Except.error`. -/
def clean_tenderE (parseDate : String → Option String) (today ingested : String)
    (raw : RawRecord) : Except String Tender := do
  let tid ← clean_tender_id raw.tender_id
  Except.ok
    { tender_id := tid
      tender_type := normalize_tender_type raw.tender_type_raw
      title := clean_text raw.title
      organization := clean_text raw.organization
      publish_date := normalize_date parseDate today raw.publish_date_raw false
      closing_date := normalize_date parseDate today raw.closing_date_raw true
      description := clean_description (raw.description.getD raw.title)
      source_url := raw.source_url
      attachments := extract_attachments raw.attachments_raw
      raw_html_snippet :=
        match raw.raw_html with
        | some s => if s = "" then none else some (s.take 500)
        | none => none
      ingested_at := some ingested }

/-- `Cleaner.clean_tender`: any exception during construction is caught and
the record rejected (`None`). -/
def clean_tender (parseDate : String → Option String) (today ingested : String)
    (raw : RawRecord) : Option Tender :=
  (clean_tenderE parseDate today ingested raw).toOption

/-! ## Parser (src/scraper/parser.py)

The BeautifulSoup document is modelled abstractly: a document is a list of
tables (each a list of rows of cells carrying their hyperlinks) plus the
document-wide list of hyperlink elements (with their enclosing row, when one
exists, as BeautifulSoup's `find_parent('tr')` would return it).  `get_text
(strip=True)` results are modelled as the stored `text` fields. -/

/-- An `<a>` element: `href` attribute and stripped text. -/
structure Link where
  href : String
  text : String
deriving Repr, DecidableEq

/-- A `<td>`/`<th>` cell: stripped text and the hyperlinks it contains, in
document order. -/
structure Cell where
  text : String := ""
  links : List Link := []
deriving Repr, DecidableEq

/-- A `<tr>` row: its cells (`find_all(['td', 'th'])`) and its serialized
markup (`str(row)`). -/
structure Row where
  cells : List Cell := []
  raw : String := ""
deriving Repr, DecidableEq

/-- A `<table>`: its `class` attribute values and its `<tr>` rows. -/
structure HtmlTable where
  cls : List String := []
  rows : List Row := []
deriving Repr, DecidableEq

/-- A document-level `<a>` element as seen by `soup.find_all('a', ...)`:
the link, its enclosing `<tr>` (if any), and `str(link.parent)` (falling back
to `str(link)` when there is no parent node). -/
structure DocLink where
  link : Link
  parentRow : Option Row := none
  parentRepr : String := ""
deriving Repr, DecidableEq

/-- The parsed document. -/
structure HtmlDoc where
  tables : List HtmlTable := []
  docLinks : List DocLink := []
deriving Repr, DecidableEq

/-- `re.search(r'/tender/(\d+)', href)`: leftmost occurrence of `/tender/`
followed by at least one digit; returns the maximal digit run. -/
def tenderIdSearch : List Char → Option String
  | [] => none
  | c :: rest =>
    if ("/tender/").data.isPrefixOf (c :: rest) then
      let ds := ((c :: rest).drop 8).takeWhile Char.isDigit
      if ds.isEmpty then tenderIdSearch rest else some ds.asString
    else tenderIdSearch rest

/-- The table-selector chain: `find('table', class_='dataTable') or
find('table', class_='table') or find('table')`. -/
def findTable (doc : HtmlDoc) : Option HtmlTable :=
  (doc.tables.find? (fun t => decide (("dataTable" : String) ∈ t.cls))).orElse
    (fun _ => (doc.tables.find? (fun t => decide (("table" : String) ∈ t.cls))).orElse
      (fun _ => doc.tables.head?))

/-- `_extract_tender_from_row`. -/
def extract_tender_from_row (row : Row) : Option RawRecord :=
  let cols := row.cells
  let link? := (cols.take 3).findSome?
    (fun c => c.links.find? (fun l => containsSub ("/tender/").data l.href.data))
  match link? with
  | none => none
  | some link =>
    match tenderIdSearch link.href.data with
    | none => none
    | some tid =>
      some
        { tender_id := tid
          title := link.text
          organization := if cols.length > 1 then (cols.get? 1).elim "" Cell.text else ""
          tender_type_raw :=
            if cols.length > 2 then (cols.get? 2).elim "" Cell.text else "Works"
          publish_date_raw :=
            if cols.length > 3 then (cols.get? 3).elim "" Cell.text else ""
          closing_date_raw :=
            if cols.length > 4 then (cols.get? 4).elim "" Cell.text else ""
          description := none
          source_url := "https://tender.nprocure.com" ++ link.href
          attachments_raw := .vList []
          raw_html := some (row.raw.take 500) }

/-- `_parse_from_links`: every document link whose href matches
`/tender/\d+` becomes one record. -/
def parse_from_links (doc : HtmlDoc) : List RawRecord :=
  let tender_links :=
    doc.docLinks.filter (fun dl => (tenderIdSearch dl.link.href.data).isSome)
  tender_links.filterMap (fun dl =>
    match tenderIdSearch dl.link.href.data with
    | none => none
    | some tid =>
      let organization :=
        match dl.parentRow with
        | some row => if row.cells.length > 1 then (row.cells.get? 1).elim "" Cell.text else ""
        | none => ""
      let tender_type :=
        match dl.parentRow with
        | some row =>
          if row.cells.length > 2 then (row.cells.get? 2).elim "Works" Cell.text
          else "Works"
        | none => "Works"
      some
        { tender_id := tid
          title := dl.link.text
          organization := if organization = "" then "Unknown Organization" else organization
          tender_type_raw := tender_type
          publish_date_raw := ""
          closing_date_raw := ""
          description := none
          source_url := "https://tender.nprocure.com" ++ dl.link.href
          attachments_raw := .vList []
          raw_html := some dl.parentRepr })

/-- `Parser.parse_tender_list_from_html`. -/
def parse_tender_list_from_html (doc : HtmlDoc) : List RawRecord :=
  match findTable doc with
  | none => parse_from_links doc
  | some table =>
    let all_rows := table.rows
    let rows := if all_rows.length > 1 then all_rows.drop 1 else all_rows
    let tenders := rows.filterMap
      (fun row => if row.cells.length < 3 then none else extract_tender_from_row row)
    if tenders.isEmpty then parse_from_links doc else tenders

/-! ### Parser, structured-data mode -/

/-- A flat JSON object: its string-valued fields as an association list, plus
the value under its `attachments` key (`item.get('attachments', [])`). -/
structure JsonItem where
  fields : List (String × String) := []
  attachments : PyVal := .vList []

/-- Python `item.get(key, default)` on the string fields. -/
def JsonItem.get (it : JsonItem) (key default : String) : String :=
  match it.fields.lookup key with
  | some v => v
  | none => default

/-- The decoded JSON response shape:
`json_data.get('data', json_data) if isinstance(json_data, dict) else json_data`
followed by the `isinstance(data_list, list)` check leaves exactly two
productive shapes — a bare array, or a dict whose `data` key holds an array —
and everything else degrades to an empty result. -/
inductive JsonResponse where
  | arr : List JsonItem → JsonResponse
  | objWithData : List JsonItem → JsonResponse
  | notAList : JsonResponse

/-- The per-item construction inside `parse_tender_from_json`. -/
def parse_json_item (it : JsonItem) : RawRecord :=
  { tender_id := it.get ("tenderId") (it.get ("id") ("UNKNOWN"))
    title := it.get ("title") (it.get ("tenderTitle") (""))
    organization := it.get ("organization") (it.get ("organizationName") (""))
    tender_type_raw := it.get ("tenderType") (it.get ("evaluationType") (""))
    publish_date_raw := it.get ("publishDate") (it.get ("bidSubmissionStartDate") (""))
    closing_date_raw := it.get ("closingDate") (it.get ("bidSubmissionEndDate") (""))
    description := some (it.get ("description") (it.get ("tenderDescription") ("")))
    source_url := "https://tender.nprocure.com/tender/" ++ it.get ("tenderId") (it.get ("id") (""))
    attachments_raw := it.attachments
    raw_html := none }

/-- `Parser.parse_tender_from_json`. -/
def parse_tender_from_json : JsonResponse → List RawRecord
  | .arr items => items.map parse_json_item
  | .objWithData items => items.map parse_json_item
  | .notAList => []

/-! ## Persister (src/scraper/persister.py)

`save_tenders` is modelled over the loaded persisted collection (`store`,
empty when the output file does not exist — the code's own load semantics)
and the persister instance's deduplicator state `p` (`TenderDeduplicator()`
at construction).  It returns the overwritten collection, the saved count and
the updated deduplicator state. -/

def save_tenders (p : TenderDeduplicator) (store : List Tender)
    (tenders : List Tender) : List Tender × Nat × TenderDeduplicator :=
  if tenders.isEmpty then (store, 0, p)
  else
    let p1 := store.foldl (fun d t => d.mark_seen t) p
    let step := p1.deduplicate tenders
    (store ++ step.1, step.1.length, step.2)

/-- Modelled from the spec (§4.5 `saveTenders`): load, seed a *fresh*
deduplicator with every loaded entity's id, deduplicate the batch,
concatenate loaded + newly-unique, return the newly-unique count.  Used as
the comparison point for the refinement claim about `save_tenders`. -/
def save_tenders_spec (store : List Tender) (tenders : List Tender) :
    List Tender × Nat :=
  let fresh : TenderDeduplicator := ⟨store.map (fun t => t.tender_id)⟩
  let unique := (fresh.deduplicate tenders).1
  (store ++ unique, unique.length)

/-! ## Orchestrator (src/scraper/orchestrator.py)

`Orchestrator.run` is modelled with its stage computations as parameters
returning `Except String` values (any stage's uncaught Python exception is an
`Except.error` carrying `str(e)`); the orchestrator's own control flow —
counter accumulation, the mock-data substitution for an empty parse, the
`try/except` with `finish()`, the `fatal_error` entry and the single
`save_run_metadata` call on each path — is concrete. -/

/-- The run-summary fields the pipeline mutates (`RunMetadata`); `finish()`
(end-time and duration stamping) is modelled by the `finished` flag. -/
structure RunMetadata where
  pages_visited : Nat := 0
  tenders_parsed : Nat := 0
  tenders_saved : Nat := 0
  failures : Nat := 0
  deduped_count : Nat := 0
  tender_types_processed : List String := []
  error_summary : List (String × String) := []
  finished : Bool := false
deriving Repr, DecidableEq

/-- `RunMetadata.finish()`. -/
def RunMetadata.finish (m : RunMetadata) : RunMetadata :=
  { m with finished := true }

/-- The observable outcome of one `Orchestrator.run` invocation: the returned
or re-raised result, the final run summary, how many times
`save_run_metadata` was invoked, and the final persisted tender store. -/
structure RunResult where
  outcome : Except String Unit
  meta : RunMetadata
  metadataSaves : Nat
  store : List Tender
deriving Repr

/-- The `except Exception` handler: `finish()`, record the message under
`fatal_error`, persist the summary, re-raise. -/
def failResult (m : RunMetadata) (store : List Tender) (e : String) : RunResult :=
  { outcome := .error e
    meta := { m.finish with error_summary := m.error_summary ++ [("fatal_error", e)] }
    metadataSaves := 1
    store := store }

/-- The Step-3 cleaning loop (orchestrator lines 70–78): per-record
exceptions are caught, increment `failures` and do not abort; `None` results
are dropped. -/
def cleanLoop (cleanS : RawRecord → Except String (Option Tender)) :
    List RawRecord → List Tender × Nat
  | [] => ([], 0)
  | r :: rest =>
    let step := cleanLoop cleanS rest
    match cleanS r with
    | .error _ => (step.1, step.2 + 1)
    | .ok none => step
    | .ok (some t) => (t :: step.1, step.2)

/-- `list(tender_types_set)`: the set of cleaned tender types (Python set
iteration order determinized to first-occurrence order). -/
def typesOf (cleaned : List Tender) : List String :=
  cleaned.foldl
    (fun acc t => if t.tender_type ∈ acc then acc else acc ++ [t.tender_type]) []

/-- `Orchestrator.run`. -/
def Orchestrator.run (fetchS : Except String HtmlDoc)
    (parseS : HtmlDoc → Except String (List RawRecord))
    (mockS : Nat → List RawRecord)
    (cleanS : RawRecord → Except String (Option Tender))
    (saveS : List Tender → List Tender → Except String (List Tender × Nat))
    (limit : Nat) (store : List Tender) : RunResult :=
  let m0 : RunMetadata := {}
  match fetchS with
  | .error e => failResult m0 store e
  | .ok doc =>
    let m1 := { m0 with pages_visited := m0.pages_visited + 1 }
    match parseS doc with
    | .error e => failResult m1 store e
    | .ok raw0 =>
      let raw1 := if raw0.length = 0 then mockS limit else raw0
      let m2 := { m1 with tenders_parsed := raw1.length }
      let raws := raw1.take limit
      let cleanedStep := cleanLoop cleanS raws
      let cleaned := cleanedStep.1
      let m3 := { m2 with
        failures := cleanedStep.2
        tender_types_processed := typesOf cleaned }
      match saveS store cleaned with
      | .error e => failResult m3 store e
      | .ok (store1, saved) =>
        let m4 := { m3 with
          tenders_saved := saved
          deduped_count := cleaned.length - saved }
        { outcome := .ok ()
          meta := m4.finish
          metadataSaves := 1
          store := store1 }

/-! ### Mock tenders (`Orchestrator._generate_mock_tenders`) -/

/-- The eight mock organizations. -/
def mockOrgs : List String :=
  [ "Ahmedabad Municipal Corporation"
  , "Gujarat Water Supply Board"
  , "Roads and Buildings Department"
  , "Health and Family Welfare Dept"
  , "Gujarat State Electricity Corp"
  , "Education Department Gujarat"
  , "Surat Municipal Corporation"
  , "Vadodara Municipal Corporation" ]

/-- The fifteen mock (title, tender type) pairs. -/
def mockTitles : List (String × String) :=
  [ ("Supply of Office Furniture and Equipment", "Goods")
  , ("Construction of Underground Drainage System", "Works")
  , ("IT Infrastructure Management Services", "Services")
  , ("Road Widening Project NH-48", "Works")
  , ("Procurement of Medical Equipment", "Goods")
  , ("Building Construction and Maintenance", "Works")
  , ("Security Services for Government Buildings", "Services")
  , ("Supply of Laboratory Equipment", "Goods")
  , ("Water Supply Pipeline Project", "Works")
  , ("Consultancy Services for IT", "Services")
  , ("Electrical Equipment Procurement", "Goods")
  , ("School Building Construction", "Works")
  , ("Housekeeping Services", "Services")
  , ("Supply of Computers and Accessories", "Goods")
  , ("Bridge Construction Project", "Works") ]

/-- One mock raw tender.  `random.randint` (base id) and the two
`strftime`'d random dates are parameters (`baseId`, `pubRaw`, `closeRaw`). -/
def mockTender (baseId : Nat) (pubRaw closeRaw : Nat → String) (i : Nat) :
    RawRecord :=
  let pair := (mockTitles.get? (i % mockTitles.length)).getD ("", "")
  let org := (mockOrgs.get? (i % mockOrgs.length)).getD ""
  { tender_id := toString (baseId + i)
    title := pair.1 ++ " - Tender " ++ toString (baseId + i)
    organization := org
    tender_type_raw := pair.2
    publish_date_raw := pubRaw i
    closing_date_raw := closeRaw i
    description := some (pair.1 ++ " for " ++ org)
    source_url := "https://tender.nprocure.com/tender/" ++ toString (baseId + i)
    attachments_raw := .vList []
    raw_html := some ("<tr><td>" ++ pair.1 ++ "</td><td>" ++ org ++ "</td></tr>") }

/-- `_generate_mock_tenders(count)`. -/
def generate_mock_tenders (baseId : Nat) (pubRaw closeRaw : Nat → String)
    (count : Nat) : List RawRecord :=
  (List.range (min count mockTitles.length)).map (mockTender baseId pubRaw closeRaw)

/-- The concrete pipeline: `Orchestrator.run` instantiated with the embedded
parser, mock generator, cleaner (with its abstract date parser and clock) and
persister (with the fresh per-construction deduplicator). -/
def runConcrete (fetchS : Except String HtmlDoc) (limit : Nat) (baseId : Nat)
    (pubRaw closeRaw : Nat → String) (parseDate : String → Option String)
    (today ingested : String) (store : List Tender) : RunResult :=
  Orchestrator.run fetchS
    (fun doc => .ok (parse_tender_list_from_html doc))
    (generate_mock_tenders baseId pubRaw closeRaw)
    (fun raw => .ok (clean_tender parseDate today ingested raw))
    (fun st batch =>
      let step := save_tenders ⟨[]⟩ st batch
      .ok (step.1, step.2.1))
    limit store

/-! ## Retry lemmas and claims C2, C10 -/

/-- On an operation that fails every call, the retry loop makes exactly
`fuel = total - attempt` calls, sleeps the exponential-backoff delays for
attempts `attempt, …, total - 2`, and re-raises the final attempt's error. -/
theorem retryLoop_always_fails {ε α : Type} (func : Nat → Except ε α)
    (baseDelay : ℚ) (jitter : Nat → ℚ) (err : Nat → ε)
    (hf : ∀ i, func i = .error (err i)) (total : Nat) :
    ∀ fuel attempt, fuel = total - attempt → 0 < fuel →
    retryLoop func baseDelay jitter total attempt fuel =
      ⟨.error (err (total - 1)), fuel,
        (List.range' attempt (fuel - 1)).map
          (fun i => baseDelay * 2 ^ i + jitter i)⟩ := by
  intro fuel
  induction fuel with
  | zero => intro attempt _ h0; exact absurd h0 (by omega)
  | succ f ih =>
    intro attempt hfuel _
    have hattempt : attempt < total := by omega
    simp only [retryLoop, hf attempt]
    by_cases hlast : attempt < total - 1
    · have hf0 : 0 < f := by omega
      have hfeq : f = total - (attempt + 1) := by omega
      rw [if_pos hlast, ih (attempt + 1) hfeq hf0]
      have hsplit : List.range' attempt (f + 1 - 1) =
          attempt :: List.range' (attempt + 1) (f - 1) := by
        rw [show f + 1 - 1 = (f - 1) + 1 by omega]
        rfl
      rw [hsplit]
      rfl
    · rw [if_neg hlast]
      have hf0 : f = 0 := by omega
      subst hf0
      rw [show attempt = total - 1 by omega]
      rfl

/-- An operation failing identically on every invocation (for concrete
retry-claim instances). -/
def failF : Nat → Except String Unit := fun _ => Except.error ("boom")

/-- The degenerate jitter sample sequence used in concrete instances. -/
def zeroJitter : Nat → ℚ := fun _ => 0

/-- C2 counterexample: at `max_retries = 0` an always-failing operation is
never invoked and the wrapper returns `None` instead of propagating any
exception — the retry exhausts silently, contradicting the claim's
universally-quantified "no retry exhausts silently". -/
theorem retry_zero_silent_counterexample :
    (retry_with_backoff 0 1 zeroJitter failF).result = Except.ok none ∧
    (retry_with_backoff 0 1 zeroJitter failF).calls = 0 := ⟨rfl, rfl⟩

/-- C2 (amended: for `max_retries ≥ 1`): an always-failing operation wrapped
by `retry_with_backoff` is invoked exactly `max_retries` times; the delay
slept before attempt `k` (0-indexed, `k ≥ 1`) is
`base_delay * 2 ^ (k - 1) + jitter`, so with the jitter samples in `[0, 1)`
each delay lies in `[base_delay * 2 ^ (k - 1), base_delay * 2 ^ (k - 1) + 1)`;
and the final attempt's exception is propagated unmodified. -/
theorem retry_exhaustion_amended {ε α : Type} (max_retries : Int)
    (base_delay : ℚ) (jitter : Nat → ℚ) (err : Nat → ε)
    (func : Nat → Except ε α) (hpos : 1 ≤ max_retries)
    (hf : ∀ i, func i = .error (err i)) (hj : ∀ i, 0 ≤ jitter i ∧ jitter i < 1) :
    (retry_with_backoff max_retries base_delay jitter func).calls =
      max_retries.toNat ∧
    (retry_with_backoff max_retries base_delay jitter func).result =
      Except.error (err (max_retries.toNat - 1)) ∧
    (retry_with_backoff max_retries base_delay jitter func).delays =
      (List.range (max_retries.toNat - 1)).map
        (fun k => base_delay * 2 ^ k + jitter k) ∧
    (∀ k, k < max_retries.toNat - 1 →
      base_delay * 2 ^ k ≤ base_delay * 2 ^ k + jitter k ∧
      base_delay * 2 ^ k + jitter k < base_delay * 2 ^ k + 1) := by
  have h0 : 0 < max_retries.toNat := by omega
  have key := retryLoop_always_fails func base_delay jitter err hf
    max_retries.toNat max_retries.toNat 0 (by omega) h0
  rw [retry_with_backoff, key]
  refine ⟨rfl, rfl, ?_, ?_⟩
  · rw [List.range_eq_range']
  · intro k _
    constructor
    · linarith [(hj k).1]
    · linarith [(hj k).2]

/-- Witness for C2 (amended) at `max_retries = 3`, `base_delay = 1`,
zero jitter. -/
theorem retry_exhaustion_amended_witness :
    (retry_with_backoff 3 1 zeroJitter failF).calls = 3 ∧
    (retry_with_backoff 3 1 zeroJitter failF).result = Except.error ("boom") ∧
    (retry_with_backoff 3 1 zeroJitter failF).delays = [1, 2] := by
  have h := retry_exhaustion_amended 3 1 zeroJitter (fun _ => "boom") failF
    (by norm_num) (fun _ => rfl) (fun _ => by norm_num [zeroJitter])
  refine ⟨h.1, h.2.1, ?_⟩
  rw [h.2.2.1]
  simp [List.range_succ, zeroJitter]

/-- C10: with `max_retries ≤ 0` the wrapper returns `None` without invoking
the operation and without raising. -/
theorem retry_nonpositive_returns_none {ε α : Type} (max_retries : Int)
    (h : max_retries ≤ 0) (base_delay : ℚ) (jitter : Nat → ℚ)
    (func : Nat → Except ε α) :
    (retry_with_backoff max_retries base_delay jitter func).result =
      Except.ok none ∧
    (retry_with_backoff max_retries base_delay jitter func).calls = 0 ∧
    (retry_with_backoff max_retries base_delay jitter func).delays = [] := by
  have h0 : max_retries.toNat = 0 := by omega
  rw [retry_with_backoff, h0]
  exact ⟨rfl, rfl, rfl⟩

/-- Witness for C10 at `max_retries = -2`. -/
theorem retry_nonpositive_returns_none_witness :
    (retry_with_backoff (-2) 1 zeroJitter failF).result = Except.ok none ∧
    (retry_with_backoff (-2) 1 zeroJitter failF).calls = 0 ∧
    (retry_with_backoff (-2) 1 zeroJitter failF).delays = [] :=
  retry_nonpositive_returns_none (-2) (by norm_num) 1 zeroJitter failF

/-! ## Claim C6: deduplicate -/

/-- C6: `deduplicate` returns, in the input's original order, exactly the
entities whose ids were not yet registered (first occurrence wins within the
input), registers every incoming id, and a second `deduplicate` over the same
sequence returns an empty result. -/
theorem deduplicate_first_occurrence (seen : List String) (ts : List Tender) :
    ((⟨seen⟩ : TenderDeduplicator).deduplicate ts).1.Sublist ts ∧
    (∀ t ∈ ((⟨seen⟩ : TenderDeduplicator).deduplicate ts).1,
      t.tender_id ∉ seen) ∧
    (((⟨seen⟩ : TenderDeduplicator).deduplicate ts).1.map
      (fun t => t.tender_id)).Nodup ∧
    (∀ t ∈ ts, t.tender_id ∉ seen →
      t.tender_id ∈ ((⟨seen⟩ : TenderDeduplicator).deduplicate ts).1.map
        (fun t => t.tender_id)) ∧
    (∀ x, x ∈ ((⟨seen⟩ : TenderDeduplicator).deduplicate ts).2.seen_ids ↔
      x ∈ seen ∨ x ∈ ts.map (fun t => t.tender_id)) ∧
    ((((⟨seen⟩ : TenderDeduplicator).deduplicate ts).2).deduplicate ts).1 = [] := by
  refine ⟨dedup_sublist _ ts, fun t ht => dedup_out_not_seen _ ts t ht,
    dedup_out_nodup _ ts, fun t ht h => dedup_complete _ ts t ht h,
    fun x => dedup_seen_mem _ ts x, ?_⟩
  apply dedup_all_seen_nil
  intro t ht
  rw [dedup_seen_mem]
  exact Or.inr (List.mem_map_of_mem _ ht)

/-- A concrete tender for witnesses. -/
def tA : Tender :=
  { tender_id := "1", tender_type := "Works", title := "", organization := ""
    publish_date := none, closing_date := none, description := ""
    source_url := "", attachments := [] }

/-- Witness for C6 on the duplicate-containing batch `[tA, tA]`. -/
theorem deduplicate_first_occurrence_witness :
    ((((⟨[]⟩ : TenderDeduplicator).deduplicate [tA, tA]).2).deduplicate
      [tA, tA]).1 = [] ∧
    tA.tender_id ∈ (((⟨[]⟩ : TenderDeduplicator).deduplicate [tA, tA]).1.map
      (fun t => t.tender_id)) :=
  ⟨(deduplicate_first_occurrence [] [tA, tA]).2.2.2.2.2,
   (deduplicate_first_occurrence [] [tA, tA]).2.2.2.1 tA (by simp) (by simp)⟩

/-! ## Claims C4, C5: save_tenders -/

theorem foldl_mark_seen_mem (store : List Tender) (p : TenderDeduplicator)
    (x : String) :
    x ∈ (store.foldl (fun d t => d.mark_seen t) p).seen_ids ↔
      x ∈ p.seen_ids ∨ x ∈ store.map (fun t => t.tender_id) := by
  induction store generalizing p with
  | nil => simp
  | cons t rest ih =>
    simp only [List.foldl_cons, List.map_cons, List.mem_cons]
    rw [ih]
    simp only [TenderDeduplicator.mark_seen, List.mem_cons]
    tauto

/-- C4: `save_tenders` on a freshly-constructed persister behaves exactly as
the spec's description — it seeds a fresh deduplicator with every loaded
entity's id, filters the batch through it, overwrites the store with the
loaded entities followed by the newly-unique entities in their original
order, and returns the newly-unique count. -/
theorem save_tenders_meets_spec (store ts : List Tender) :
    (save_tenders ⟨[]⟩ store ts).1 = (save_tenders_spec store ts).1 ∧
    (save_tenders ⟨[]⟩ store ts).2.1 = (save_tenders_spec store ts).2 ∧
    (save_tenders_spec store ts).1 = store ++
      ((⟨store.map (fun t => t.tender_id)⟩ :
        TenderDeduplicator).deduplicate ts).1 ∧
    ((⟨store.map (fun t => t.tender_id)⟩ :
      TenderDeduplicator).deduplicate ts).1.Sublist ts ∧
    (save_tenders_spec store ts).2 =
      ((⟨store.map (fun t => t.tender_id)⟩ :
        TenderDeduplicator).deduplicate ts).1.length := by
  have hcongr :
      ((store.foldl (fun d t => d.mark_seen t)
        (⟨[]⟩ : TenderDeduplicator)).deduplicate ts).1 =
      ((⟨store.map (fun t => t.tender_id)⟩ :
        TenderDeduplicator).deduplicate ts).1 := by
    apply dedup_congr
    intro x
    rw [foldl_mark_seen_mem]
    simp
  by_cases hts : ts.isEmpty
  · have hnil : ts = [] := by simpa using hts
    subst hnil
    simp [save_tenders, save_tenders_spec, TenderDeduplicator.deduplicate]
  · refine ⟨?_, ?_, rfl, dedup_sublist _ ts, rfl⟩
    · simp only [save_tenders, hts, if_false, Bool.false_eq_true,
        save_tenders_spec, hcongr]
    · simp only [save_tenders, hts, if_false, Bool.false_eq_true,
        save_tenders_spec, hcongr]

/-- When every incoming id is already present in the loaded store,
`save_tenders` saves nothing and leaves the store unchanged. -/
theorem save_tenders_all_dup (store1 ts : List Tender)
    (h : ∀ t ∈ ts, t.tender_id ∈ store1.map (fun u => u.tender_id)) :
    (save_tenders ⟨[]⟩ store1 ts).2.1 = 0 ∧
    (save_tenders ⟨[]⟩ store1 ts).1 = store1 := by
  by_cases hts : ts.isEmpty
  · simp [save_tenders, hts]
  · have hnil : ((store1.foldl (fun d t => d.mark_seen t)
        (⟨[]⟩ : TenderDeduplicator)).deduplicate ts).1 = [] := by
      apply dedup_all_seen_nil
      intro t ht
      rw [foldl_mark_seen_mem]
      exact Or.inr (h t ht)
    constructor
    · simp only [save_tenders, hts, if_false, Bool.false_eq_true, hnil,
        List.length_nil]
    · simp only [save_tenders, hts, if_false, Bool.false_eq_true, hnil,
        List.append_nil]

/-- C5: persisting the same batch twice (each time through a fresh persister,
as each orchestrator run constructs one) leaves the store unchanged on the
second persist; the second call returns 0, and the orchestrator's
`deduped_count` (cleaned count minus saved count) on the second run equals
the full input count. -/
theorem save_tenders_idempotent (store ts : List Tender) :
    (save_tenders ⟨[]⟩ (save_tenders ⟨[]⟩ store ts).1 ts).2.1 = 0 ∧
    (save_tenders ⟨[]⟩ (save_tenders ⟨[]⟩ store ts).1 ts).1 =
      (save_tenders ⟨[]⟩ store ts).1 ∧
    ts.length - (save_tenders ⟨[]⟩ (save_tenders ⟨[]⟩ store ts).1 ts).2.1 =
      ts.length := by
  have hall : ∀ t ∈ ts, t.tender_id ∈
      ((save_tenders ⟨[]⟩ store ts).1).map (fun u => u.tender_id) := by
    intro t ht
    have hts : ts.isEmpty = false := by
      cases ts with
      | nil => exact absurd ht (List.not_mem_nil t)
      | cons a l => rfl
    have hs1eq : (save_tenders ⟨[]⟩ store ts).1 = store ++
        ((store.foldl (fun d u => d.mark_seen u)
          (⟨[]⟩ : TenderDeduplicator)).deduplicate ts).1 := by
      simp only [save_tenders, hts, Bool.false_eq_true, if_false]
    rw [hs1eq, List.map_append, List.mem_append]
    by_cases hid : t.tender_id ∈ store.map (fun u => u.tender_id)
    · exact Or.inl hid
    · refine Or.inr (dedup_complete _ ts t ht ?_)
      rw [foldl_mark_seen_mem]
      simp [hid]
  have hdup := save_tenders_all_dup (save_tenders ⟨[]⟩ store ts).1 ts hall
  refine ⟨hdup.1, hdup.2, ?_⟩
  rw [hdup.1]
  omega

/-! ## Claim C7: date-defaulting asymmetry -/

/-- C7: for an empty (after trimming) or unparseable date string, the publish
date (`allow_null = false`) normalizes to the current date while the closing
date (`allow_null = true`) normalizes to `none`; and the publish date is never
`none` on any input. -/
theorem normalize_date_asymmetry (parseDate : String → Option String)
    (today : String) (s : String)
    (h : pyStrip s = "" ∨ parseDate (stripTime (pyStrip s)) = none) :
    normalize_date parseDate today s false = some today ∧
    normalize_date parseDate today s true = none ∧
    (∀ s2, (normalize_date parseDate today s2 false).isSome = true) := by
  refine ⟨?_, ?_, ?_⟩
  · by_cases hc : s = "" ∨ pyStrip s = ""
    · simp [normalize_date, hc]
    · rcases h with h | h
      · exact absurd (Or.inr h) hc
      · simp [normalize_date, hc, h]
  · by_cases hc : s = "" ∨ pyStrip s = ""
    · simp [normalize_date, hc]
    · rcases h with h | h
      · exact absurd (Or.inr h) hc
      · simp [normalize_date, hc, h]
  · intro s2
    by_cases hc : s2 = "" ∨ pyStrip s2 = ""
    · simp [normalize_date, hc]
    · cases hp : parseDate (stripTime (pyStrip s2)) with
      | none => simp [normalize_date, hc, hp]
      | some d => simp [normalize_date, hc, hp]

/-- A date parser that fails on every input (modelling `dateutil` raising). -/
def noDate : String → Option String := fun _ => none

/-- Witness for C7 on the unparseable raw string `"not a date"`. -/
theorem normalize_date_asymmetry_witness :
    normalize_date noDate ("2026-10-12") ("not a date") false =
      some ("2026-10-12") ∧
    normalize_date noDate ("2026-10-12") ("not a date") true = none :=
  ⟨(normalize_date_asymmetry noDate ("2026-10-12") ("not a date")
      (Or.inr rfl)).1,
   (normalize_date_asymmetry noDate ("2026-10-12") ("not a date")
      (Or.inr rfl)).2.1⟩

/-! ## Claim C8: cleaner identifier rejection -/

/-- C8: a raw record whose trimmed tender id is empty or the sentinel
`"UNKNOWN"` is rejected by the cleaner (no entity produced); and any
exception raised during `Tender` construction makes `clean_tender` return
`none` rather than propagate. -/
theorem clean_tender_rejects_invalid_id (parseDate : String → Option String)
    (today ingested : String) (raw : RawRecord)
    (hid : pyStrip raw.tender_id = "" ∨ pyStrip raw.tender_id = "UNKNOWN") :
    clean_tender parseDate today ingested raw = none ∧
    (∀ (raw2 : RawRecord) (e : String),
      clean_tenderE parseDate today ingested raw2 = Except.error e →
      clean_tender parseDate today ingested raw2 = none) := by
  constructor
  · simp only [clean_tender, clean_tenderE, clean_tender_id]
    rw [if_pos hid]
    rfl
  · intro raw2 e he
    simp [clean_tender, he, Except.toOption]

/-- Witness for C8 on a raw record with tender id `"UNKNOWN"`. -/
theorem clean_tender_rejects_invalid_id_witness :
    clean_tender noDate ("2026-10-12") ("t0")
      { tender_id := "UNKNOWN" } = none :=
  (clean_tender_rejects_invalid_id noDate ("2026-10-12") ("t0")
    { tender_id := "UNKNOWN" } (Or.inr rfl)).1

/-! ## Claim C9: JSON key fallbacks (corrected) -/

/-- A JSON item carrying both an `id` and a `tenderId` key with different
values. -/
def itemBothIds : JsonItem := { fields := [("id", "1"), ("tenderId", "2")] }

/-- A JSON item carrying only a `type` key. -/
def itemTypeKey : JsonItem := { fields := [("type", "Goods")] }

/-- C9 counterexample: the code reads `tenderId` as the primary key with `id`
as the fallback (the claim lists `id` as primary), so an item with both keys
yields the `tenderId` value; and the type field is read under `tenderType`,
not `type`, so an item with only a `type` key yields the empty default. -/
theorem json_primary_key_counterexample :
    (parse_tender_from_json (.arr [itemBothIds])).map
      (fun r => r.tender_id) = ["2"] ∧
    ("2" : String) ≠ "1" ∧
    (parse_tender_from_json (.arr [itemTypeKey])).map
      (fun r => r.tender_type_raw) = [""] := by
  refine ⟨rfl, ?_, rfl⟩
  decide

/-- `item.get(primary, item.get(alternate, default))`. -/
def get_with_fallback (it : JsonItem) (primary alternate default : String) :
    String :=
  it.get primary (it.get alternate default)

/-- Modelled from the spec (§4.2 structured-data mode, with the key table
amended to the code's actual primary/alternate order): the per-item field
mapping — tenderId/id, title/tenderTitle, organization/organizationName,
tenderType/evaluationType, publishDate/bidSubmissionStartDate,
closingDate/bidSubmissionEndDate, description/tenderDescription — with the
detail URL synthesized from the identifier. -/
def parse_json_item_spec (it : JsonItem) : RawRecord :=
  { tender_id := get_with_fallback it ("tenderId") ("id") ("UNKNOWN")
    title := get_with_fallback it ("title") ("tenderTitle") ("")
    organization := get_with_fallback it ("organization") ("organizationName") ("")
    tender_type_raw := get_with_fallback it ("tenderType") ("evaluationType") ("")
    publish_date_raw :=
      get_with_fallback it ("publishDate") ("bidSubmissionStartDate") ("")
    closing_date_raw :=
      get_with_fallback it ("closingDate") ("bidSubmissionEndDate") ("")
    description := some (get_with_fallback it ("description") ("tenderDescription") (""))
    source_url := "https://tender.nprocure.com/tender/" ++
      get_with_fallback it ("tenderId") ("id") ("")
    attachments_raw := it.attachments
    raw_html := none }

/-- C9 (amended): in structured-data mode every item of the data sequence is
mapped through the primary/fallback key table `tenderId`/`id`,
`title`/`tenderTitle`, `organization`/`organizationName`,
`tenderType`/`evaluationType`, `publishDate`/`bidSubmissionStartDate`,
`closingDate`/`bidSubmissionEndDate`, `description`/`tenderDescription`, with
the detail URL synthesized from the identifier. -/
theorem json_key_fallback_amended (resp : JsonResponse) (items : List JsonItem)
    (h : resp = .arr items ∨ resp = .objWithData items) :
    parse_tender_from_json resp = items.map parse_json_item_spec := by
  have hfun : parse_json_item = parse_json_item_spec := funext (fun it => rfl)
  rcases h with rfl | rfl <;>
    simp [parse_tender_from_json, hfun]

/-- Witness for C9 (amended) on a bare-array response. -/
theorem json_key_fallback_amended_witness :
    parse_tender_from_json (.arr [itemBothIds, itemTypeKey]) =
      [parse_json_item_spec itemBothIds, parse_json_item_spec itemTypeKey] :=
  json_key_fallback_amended (.arr [itemBothIds, itemTypeKey])
    [itemBothIds, itemTypeKey] (Or.inl rfl)

/-! ## Claim C1: orchestrator finalization -/

/-- C1: for every combination of stage outcomes, `Orchestrator.run` persists
the run summary exactly once; on normal completion the timestamps are
finalized before returning; on any stage exception the message is recorded
under the `fatal_error` key, timestamps are finalized, and the same exception
is re-raised (shown for each failing stage). -/
theorem orchestrator_summary_once (fetchS : Except String HtmlDoc)
    (parseS : HtmlDoc → Except String (List RawRecord))
    (mockS : Nat → List RawRecord)
    (cleanS : RawRecord → Except String (Option Tender))
    (saveS : List Tender → List Tender → Except String (List Tender × Nat))
    (limit : Nat) (store : List Tender) :
    (Orchestrator.run fetchS parseS mockS cleanS saveS limit
      store).metadataSaves = 1 ∧
    ((Orchestrator.run fetchS parseS mockS cleanS saveS limit store).outcome =
        Except.ok () →
      (Orchestrator.run fetchS parseS mockS cleanS saveS limit
        store).meta.finished = true) ∧
    (∀ e, (Orchestrator.run fetchS parseS mockS cleanS saveS limit
        store).outcome = Except.error e →
      ("fatal_error", e) ∈ (Orchestrator.run fetchS parseS mockS cleanS saveS
        limit store).meta.error_summary ∧
      (Orchestrator.run fetchS parseS mockS cleanS saveS limit
        store).meta.finished = true) ∧
    (∀ e, fetchS = Except.error e →
      (Orchestrator.run fetchS parseS mockS cleanS saveS limit
        store).outcome = Except.error e) ∧
    (∀ doc e, fetchS = Except.ok doc → parseS doc = Except.error e →
      (Orchestrator.run fetchS parseS mockS cleanS saveS limit
        store).outcome = Except.error e) ∧
    (∀ doc raws e, fetchS = Except.ok doc → parseS doc = Except.ok raws →
      saveS store (cleanLoop cleanS
        ((if raws.length = 0 then mockS limit else raws).take limit)).1 =
        Except.error e →
      (Orchestrator.run fetchS parseS mockS cleanS saveS limit
        store).outcome = Except.error e) := by
  rcases fetchS with e0 | doc
  · refine ⟨rfl, ?_, ?_, ?_, ?_, ?_⟩
    · intro h
      simp [Orchestrator.run, failResult] at h
    · intro e he
      simp only [Orchestrator.run, failResult, Except.error.injEq] at he
      subst he
      simp [Orchestrator.run, failResult, RunMetadata.finish]
    · intro e he
      injection he with h
      subst h
      rfl
    · intro doc e hfe
      simp at hfe
    · intro doc raws e hfe
      simp at hfe
  · rcases hp : parseS doc with e1 | raws
    · refine ⟨?_, ?_, ?_, ?_, ?_, ?_⟩
      · simp [Orchestrator.run, hp, failResult]
      · intro h
        simp [Orchestrator.run, hp, failResult] at h
      · intro e he
        simp only [Orchestrator.run, hp, failResult, Except.error.injEq] at he
        subst he
        simp [Orchestrator.run, hp, failResult, RunMetadata.finish]
      · intro e hfe
        simp at hfe
      · intro doc2 e hfe hpe
        injection hfe with h
        subst h
        rw [hp] at hpe
        injection hpe with h1
        subst h1
        simp [Orchestrator.run, hp, failResult]
      · intro doc2 raws2 e hfe hpe _
        injection hfe with h
        subst h
        rw [hp] at hpe
        exact absurd hpe (by simp)
    · rcases hs : saveS store (cleanLoop cleanS
          ((if raws.length = 0 then mockS limit else raws).take limit)).1
        with e2 | pr
      · refine ⟨?_, ?_, ?_, ?_, ?_, ?_⟩
        · simp [Orchestrator.run, hp, hs, failResult]
        · intro h
          simp [Orchestrator.run, hp, hs, failResult] at h
        · intro e he
          simp only [Orchestrator.run, hp, hs, failResult,
            Except.error.injEq] at he
          subst he
          simp [Orchestrator.run, hp, hs, failResult, RunMetadata.finish]
        · intro e hfe
          simp at hfe
        · intro doc2 e hfe hpe
          injection hfe with h
          subst h
          rw [hp] at hpe
          exact absurd hpe (by simp)
        · intro doc2 raws2 e hfe hpe hse
          injection hfe with h
          subst h
          rw [hp] at hpe
          injection hpe with h1
          subst h1
          rw [hs] at hse
          injection hse with h2
          subst h2
          simp [Orchestrator.run, hp, hs, failResult]
      · refine ⟨?_, ?_, ?_, ?_, ?_, ?_⟩
        · simp [Orchestrator.run, hp, hs]
        · intro _
          simp [Orchestrator.run, hp, hs, RunMetadata.finish]
        · intro e he
          simp [Orchestrator.run, hp, hs] at he
        · intro e hfe
          simp at hfe
        · intro doc2 e hfe hpe
          injection hfe with h
          subst h
          rw [hp] at hpe
          exact absurd hpe (by simp)
        · intro doc2 raws2 e hfe hpe hse
          injection hfe with h
          subst h
          rw [hp] at hpe
          injection hpe with h1
          subst h1
          rw [hs] at hse
          exact absurd hse (by simp)

/-- A fetch stage that raises. -/
def fetchBoom : Except String HtmlDoc := Except.error ("boom")

/-- A parse stage returning no records. -/
def parseNil : HtmlDoc → Except String (List RawRecord) := fun _ => Except.ok []

/-- A mock stage returning no records. -/
def mockNil : Nat → List RawRecord := fun _ => []

/-- A clean stage rejecting every record. -/
def cleanNil : RawRecord → Except String (Option Tender) := fun _ => Except.ok none

/-- A persist stage saving nothing. -/
def saveNil : List Tender → List Tender → Except String (List Tender × Nat) :=
  fun st _ => Except.ok (st, 0)

/-- Witness for C1 on a run whose fetch stage raises. -/
theorem orchestrator_summary_once_witness :
    (Orchestrator.run fetchBoom parseNil mockNil cleanNil saveNil 0
      []).metadataSaves = 1 ∧
    ("fatal_error", "boom") ∈ (Orchestrator.run fetchBoom parseNil mockNil
      cleanNil saveNil 0 []).meta.error_summary ∧
    (Orchestrator.run fetchBoom parseNil mockNil cleanNil saveNil 0
      []).meta.finished = true := by
  have h := orchestrator_summary_once fetchBoom parseNil mockNil cleanNil
    saveNil 0 []
  have hout := h.2.2.2.1 ("boom") rfl
  exact ⟨h.1, (h.2.2.1 ("boom") hout).1, (h.2.2.1 ("boom") hout).2⟩

/-! ## Claim C3: empty parse degrades gracefully — but mock data is substituted -/

/-- On a document with no table and no hyperlink matching `/tender/{digits}`,
the parse stage returns the empty sequence (with a warning, not an error). -/
theorem parse_html_empty_of_empty_doc (doc : HtmlDoc) (htab : doc.tables = [])
    (hlinks : ∀ dl ∈ doc.docLinks, tenderIdSearch dl.link.href.data = none) :
    parse_tender_list_from_html doc = [] := by
  have hft : findTable doc = none := by
    simp [findTable, htab]
  have hfl : doc.docLinks.filter
      (fun dl => (tenderIdSearch dl.link.href.data).isSome) = [] := by
    rw [List.filter_eq_nil_iff]
    intro dl hdl
    simp [hlinks dl hdl]
  simp [parse_tender_list_from_html, hft, parse_from_links, hfl]

/-- A fixed raw mock date string (the `strftime`'d random dates). -/
def constDate : Nat → String := fun _ => "01-01-2024 10:00"

/-- C3 counterexample: on the empty document the parser returns the empty
sequence, but the run (limit 1, empty store) does *not* persist zero
entities — the orchestrator substitutes mock tenders for the empty parse
output and persists one of them. -/
theorem parse_empty_mock_counterexample :
    parse_tender_list_from_html {} = [] ∧
    (runConcrete (Except.ok {}) 1 10000 constDate constDate noDate
      ("2026-10-12") ("t0") []).meta.tenders_saved = 1 ∧
    (runConcrete (Except.ok {}) 1 10000 constDate constDate noDate
      ("2026-10-12") ("t0") []).store.length = 1 := by
  exact ⟨rfl, rfl, rfl⟩

/-- C3 (amended): for every document in which no tender table and no
tender-detail hyperlink is found, the parse stage returns an empty sequence
with a warning rather than an error; the orchestrator then substitutes
generated mock tender records for the empty parse output, so a run with
`limit ≥ 1` over an empty store completes normally and persists at least one
(mock) tender entity — the empty parse output does not flow through to
persistence. -/
theorem parse_empty_graceful_amended (doc : HtmlDoc) (limit : Nat)
    (pubRaw closeRaw : Nat → String) (parseDate : String → Option String)
    (today ingested : String) (htab : doc.tables = [])
    (hlinks : ∀ dl ∈ doc.docLinks, tenderIdSearch dl.link.href.data = none)
    (hlim : 1 ≤ limit) :
    parse_tender_list_from_html doc = [] ∧
    (runConcrete (Except.ok doc) limit 10000 pubRaw closeRaw parseDate today
      ingested []).outcome = Except.ok () ∧
    1 ≤ (runConcrete (Except.ok doc) limit 10000 pubRaw closeRaw parseDate
      today ingested []).meta.tenders_saved ∧
    (runConcrete (Except.ok doc) limit 10000 pubRaw closeRaw parseDate today
      ingested []).store ≠ [] := by
  have hparse := parse_html_empty_of_empty_doc doc htab hlinks
  obtain ⟨k, hk⟩ : ∃ k, min limit mockTitles.length = k + 1 := by
    have hpos : (0 : Nat) < mockTitles.length := by decide
    exact ⟨min limit mockTitles.length - 1, by omega⟩
  have hmock : generate_mock_tenders 10000 pubRaw closeRaw limit =
      mockTender 10000 pubRaw closeRaw 0 ::
        (List.range k).map (fun i => mockTender 10000 pubRaw closeRaw (i + 1)) := by
    simp only [generate_mock_tenders, hk, List.range_succ_eq_map,
      List.map_cons, List.map_map, Function.comp_def, Nat.succ_eq_add_one]
  have htake : (generate_mock_tenders 10000 pubRaw closeRaw limit).take limit =
      generate_mock_tenders 10000 pubRaw closeRaw limit := by
    apply List.take_of_length_le
    simp only [generate_mock_tenders, List.length_map, List.length_range]
    omega
  have hid : clean_tender_id ((mockTender 10000 pubRaw closeRaw
      0).tender_id) = Except.ok ("10000") := rfl
  have hsome : (clean_tender parseDate today ingested
      (mockTender 10000 pubRaw closeRaw 0)).isSome = true := by
    simp only [clean_tender, clean_tenderE]
    rw [hid]
    rfl
  obtain ⟨t0, ht0⟩ := Option.isSome_iff_exists.mp hsome
  have hloop : ∀ rest : List RawRecord,
      cleanLoop (fun raw => Except.ok (clean_tender parseDate today ingested
        raw)) (mockTender 10000 pubRaw closeRaw 0 :: rest) =
      (t0 :: (cleanLoop (fun raw => Except.ok (clean_tender parseDate today
        ingested raw)) rest).1,
       (cleanLoop (fun raw => Except.ok (clean_tender parseDate today
        ingested raw)) rest).2) := by
    intro rest
    simp [cleanLoop, ht0]
  have hdedup : ∀ c1 : List Tender,
      ((⟨[]⟩ : TenderDeduplicator).deduplicate (t0 :: c1)).1 =
        t0 :: (((⟨[]⟩ : TenderDeduplicator).mark_seen t0).deduplicate c1).1 := by
    intro c1
    rw [dedup_cons_new ⟨[]⟩ t0 c1 (List.not_mem_nil _)]
  have hsave : ∀ c1 : List Tender,
      (save_tenders ⟨[]⟩ [] (t0 :: c1)).2.1 =
        ((⟨[]⟩ : TenderDeduplicator).deduplicate (t0 :: c1)).1.length ∧
      (save_tenders ⟨[]⟩ [] (t0 :: c1)).1 =
        ((⟨[]⟩ : TenderDeduplicator).deduplicate (t0 :: c1)).1 := by
    intro c1
    constructor <;> simp [save_tenders]
  refine ⟨hparse, ?_, ?_, ?_⟩
  · simp [runConcrete, Orchestrator.run, hparse]
  · simp only [runConcrete, Orchestrator.run, hparse, List.length_nil,
      if_pos, htake]
    rw [hmock, hloop]
    rw [(hsave _).1, hdedup]
    simp [RunMetadata.finish]
  · simp only [runConcrete, Orchestrator.run, hparse, List.length_nil,
      if_pos, htake]
    rw [hmock, hloop]
    rw [(hsave _).2, hdedup]
    simp

/-- Witness for C3 (amended) on the empty document with limit 1. -/
theorem parse_empty_graceful_amended_witness :
    parse_tender_list_from_html {} = [] ∧
    (runConcrete (Except.ok {}) 1 10000 constDate constDate noDate
      ("2026-10-12") ("t0") []).outcome = Except.ok () ∧
    1 ≤ (runConcrete (Except.ok {}) 1 10000 constDate constDate noDate
      ("2026-10-12") ("t0") []).meta.tenders_saved ∧
    (runConcrete (Except.ok {}) 1 10000 constDate constDate noDate
      ("2026-10-12") ("t0") []).store ≠ [] :=
  parse_empty_graceful_amended {} 1 constDate constDate noDate ("2026-10-12")
    ("t0") rfl (fun dl hdl => absurd hdl (List.not_mem_nil dl)) (le_refl 1)
